import Mathlib

/-!
Verification of `check/pytest-changed-files`: a bash utility that resolves a
base git revision, lists files changed relative to it, derives `_test.py`
counterparts for changed `.py` files, filters them to files existing on disk,
sorts and deduplicates them, adds a fixed global serialization test when an
`__init__.py` file changed, and finally invokes pytest on the result.

The script is embedded shallowly: external commands (git, the filesystem,
pytest) are modelled by an `Env` of response functions, and the script body is
a pure function from `Env` and argument list to a trace of performed external
effects together with the process exit code.
-/

/-- Bool test that `suf` is a suffix of `s`; models `grep "PAT$"` anchoring and
the address check of `sed "s/PAT$/.../"` for a literal pattern. -/
def strEndsWith (s suf : String) : Bool := decide (suf.data <:+ s.data)

/-- Bool test that `pre` starts `s`; models the bash pattern match `[[ $1 == -* ]]`. -/
def strStartsWith (s pre : String) : Bool := decide (pre.data <+: s.data)

/-- Models `sed -e "s/PAT$/REPL/"` for a literal pattern `pat`: if `s` ends in
`pat`, replace that final occurrence by `repl`; otherwise leave `s` alone. -/
def sedSuffix (pat repl s : String) : String :=
  if strEndsWith s pat then ⟨s.data.take (s.data.length - pat.data.length) ++ repl.data⟩ else s

/-- Byte-wise lexicographic comparison of character lists, modelling the order
used by the `sort` command on the pipeline of candidate paths. -/
def lexLe : List Char → List Char → Bool
  | [], _ => true
  | _ :: _, [] => false
  | a :: as, b :: bs => if a = b then lexLe as bs else decide (a < b)

/-- Lexicographic comparison lifted to strings. -/
def strLe (a b : String) : Bool := lexLe a.data b.data

/-- The sorting relation used by the model of `sort`. -/
def strLeR : String → String → Prop := fun a b => strLe a b = true

instance : DecidableRel strLeR := fun _ _ => inferInstanceAs (Decidable (_ = true))

/-- Models `uniq`: collapse adjacent equal lines. -/
def uniqAdj : List String → List String
  | [] => []
  | a :: l =>
    match l with
    | [] => [a]
    | b :: _ => if a = b then uniqAdj l else a :: uniqAdj l

/-- The responses of the external world to the commands the script issues:
`git cat-file -t`, `git diff --name-only REV --`, file-existence tests by
the perl existence test, the seed environment variable, `git log -1 --pretty=%ct`, and
the exit code of pytest as a function of its argument list. -/
structure Env where
  catFileType : String → Option String
  diff : String → List String
  fsExists : String → Bool
  seedVar : Option String
  commitTimestamp : String
  pytestExit : List String → Nat

/-- One observable external action of the script, in order of execution. -/
inductive Effect where
  | gitCatFile (rev : String)
  | gitDiff (rev : String)
  | stderr (msg : String)
  | exportSeed (val : String)
  | runPytest (args : List String)
  deriving DecidableEq

/-- Whether `git cat-file -t REV` reports type `commit`; models the guard
`[ "$(git cat-file -t REV)" == "commit" ]`. -/
def isCommit (env : Env) (r : String) : Bool := env.catFileType r == some "commit"

/-- The error printed at line 38 for an unresolvable explicit revision. -/
def errNoRevision (r : String) : String :=
  "\x1b[31mNo revision \x27" ++ r ++ "\x27.\x1b[0m"

/-- The error printed at line 50 when no default revision resolves. -/
def errNoDefault : String :=
  "\x1b[31mNo default revision found to compare against. Argument #1 must be what to diff against (e.g. \x27origin/master\x27 or \x27HEAD~1\x27).\x1b[0m"

/-- The progress message of line 53. -/
def comparingMsg (r : String) : String :=
  "Comparing against revision \x27" ++ r ++ "\x27."

/-- The progress message of line 73. -/
def foundMsg (n : Nat) : String :=
  "Found " ++ toString n ++ " test files associated with changes."

/-- The test `[ ! -z "$1" ] && [[ $1 != -* ]]` of line 36: the first argument
is present, non-empty, and not flag-like. -/
def firstLooksLikeRev : List String → Bool
  | [] => false
  | a :: _ => !(a == "") && !strStartsWith a "-"

/-- Lines 43..52: probe `upstream/master`, `origin/master`, `master` in order
and take the first that resolves to a commit; with no argument consumed the
whole argument list stays destined for pytest. -/
def probeDefaults (env : Env) (args : List String) :
    List Effect × Option (String × List String) :=
  if isCommit env "upstream/master" then
    ([.gitCatFile "upstream/master"], some ("upstream/master", args))
  else if isCommit env "origin/master" then
    ([.gitCatFile "upstream/master", .gitCatFile "origin/master"],
      some ("origin/master", args))
  else if isCommit env "master" then
    ([.gitCatFile "upstream/master", .gitCatFile "origin/master", .gitCatFile "master"],
      some ("master", args))
  else
    ([.gitCatFile "upstream/master", .gitCatFile "origin/master", .gitCatFile "master",
      .stderr errNoDefault], none)

/-- Lines 35..52: determine the comparison revision `rev` and the residual
pytest arguments `rest`; `none` means the script exits with code 1. -/
def resolveRev (env : Env) (args : List String) :
    List Effect × Option (String × List String) :=
  match args with
  | [] => probeDefaults env []
  | a :: tl =>
    if !(a == "") && !strStartsWith a "-" then
      if isCommit env a then ([.gitCatFile a], some (a, tl))
      else ([.gitCatFile a, .stderr (errNoRevision a)], none)
    else probeDefaults env (a :: tl)

/-- Lines 59..61: `grep "\.py$"` keeps only `.py` paths, then the two `sed`
substitutions map `X.py` to `X_test.py` and collapse `X_test_test.py` back to
`X_test.py`. -/
def deriveCandidate (f : String) : String :=
  sedSuffix "_test_test.py" "_test.py" (sedSuffix ".py" "_test.py" f)

/-- Lines 57..65: the full derivation pipeline over the diff output —
grep, the two seds, the perl existence filter, `sort`, `uniq`. -/
def derivedTests (env : Env) (rev : String) : List String :=
  uniqAdj (List.insertionSort strLeR
    ((((env.diff rev).filter (fun f => strEndsWith f ".py")).map deriveCandidate).filter
      env.fsExists))

/-- Line 66: `git diff --name-only REV -- | grep "__init__\.py$"` succeeds. -/
def hasInitChanged (env : Env) (rev : String) : Bool :=
  (env.diff rev).any (fun f => strEndsWith f "__init__.py")

/-- The hardcoded path appended at line 68. -/
def fixedGlobalTest : String := "cirq-core/cirq/protocols/json_serialization_test.py"

/-- Lines 56..69: the final contents of the `changed` array. -/
def finalFiles (env : Env) (rev : String) : List String :=
  derivedTests env rev ++ (if hasInitChanged env rev then [fixedGlobalTest] else [])

/-- Lines 80..81: the value of `CIRQ_TESTING_RANDOM_SEED` after
`: ${CIRQ_TESTING_RANDOM_SEED=$(git log -1 --pretty="%ct")}` — the existing
value if the variable was set, otherwise the latest commit timestamp. -/
def seedValue (env : Env) : String := env.seedVar.getD env.commitTimestamp

/-- Lines 53..83 after a successful revision resolution: the comparison notice,
the two diff invocations (lines 58 and 66), the count notice, and then either
an early successful exit (line 75) or the seed export and the pytest run whose
exit code becomes the script exit code. -/
def scriptTail (env : Env) (rev : String) (rest : List String) : List Effect × Nat :=
  let files := finalFiles env rev
  let base := [Effect.stderr (comparingMsg rev), Effect.gitDiff rev, Effect.gitDiff rev,
    Effect.stderr (foundMsg files.length)]
  if files.isEmpty then (base, 0)
  else
    (base ++ [Effect.exportSeed (seedValue env), Effect.runPytest (rest ++ files)],
      env.pytestExit (rest ++ files))

/-- The whole script: the effect trace it performs and its exit code. -/
def runScript (env : Env) (args : List String) : List Effect × Nat :=
  match resolveRev env args with
  | (tr, none) => (tr, 1)
  | (tr, some (rev, rest)) =>
    ((tr ++ (scriptTail env rev rest).1), (scriptTail env rev rest).2)

/-- Maps an effect to the seed value it exports, if any. -/
def seedOf : Effect → Option String
  | .exportSeed v => some v
  | _ => none

/-- The seed values the script exports during a run (at most one). -/
def exportedSeeds (env : Env) (args : List String) : List String :=
  (runScript env args).1.filterMap seedOf

/-- Recognizes a name-only diff invocation in the effect trace. -/
def isGitDiffEff : Effect → Bool
  | .gitDiff _ => true
  | _ => false

/-- The number of name-only diff invocations a run performs. -/
def diffCallCount (env : Env) (args : List String) : Nat :=
  (runScript env args).1.countP isGitDiffEff

/-- Concrete environment: one changed file `pkg/module.py` whose test
counterpart `pkg/module_test.py` exists. -/
def envC1 : Env where
  catFileType := fun _ => some "commit"
  diff := fun _ => ["pkg/module.py"]
  fsExists := fun p => p == "pkg/module_test.py"
  seedVar := none
  commitTimestamp := "1700000000"
  pytestExit := fun _ => 0

/-- Concrete environment: the serialization source and an `__init__.py` both
changed, and the serialization test file exists on disk. -/
def envC2 : Env where
  catFileType := fun _ => some "commit"
  diff := fun _ => ["cirq-core/cirq/protocols/json_serialization.py", "x/__init__.py"]
  fsExists := fun p => p == "cirq-core/cirq/protocols/json_serialization_test.py"
  seedVar := none
  commitTimestamp := "1700000000"
  pytestExit := fun _ => 0

/-- Concrete environment: no revision resolves to a commit. -/
def envFail : Env where
  catFileType := fun _ => none
  diff := fun _ => []
  fsExists := fun _ => false
  seedVar := none
  commitTimestamp := "1700000000"
  pytestExit := fun _ => 0

/-- Concrete environment: revisions resolve but nothing changed. -/
def envEmptyDiff : Env where
  catFileType := fun _ => some "commit"
  diff := fun _ => []
  fsExists := fun _ => false
  seedVar := none
  commitTimestamp := "1700000000"
  pytestExit := fun _ => 3

/-- Concrete environment: one changed file with an existing test counterpart
and a pytest run that exits with code 5. -/
def envRun : Env where
  catFileType := fun _ => some "commit"
  diff := fun _ => ["a/b.py"]
  fsExists := fun p => p == "a/b_test.py"
  seedVar := none
  commitTimestamp := "1700000000"
  pytestExit := fun _ => 5

/-- Concrete environment: a different changed file, the same latest-commit
timestamp as `envRun`, and no seed variable set. -/
def envRun2 : Env where
  catFileType := fun _ => some "commit"
  diff := fun _ => ["c/d.py"]
  fsExists := fun p => p == "c/d_test.py"
  seedVar := none
  commitTimestamp := "1700000000"
  pytestExit := fun _ => 0

/-- Concrete environment: `upstream/master` missing but `origin/master`
resolving. -/
def env8b : Env where
  catFileType := fun r => if r == "upstream/master" then none else some "commit"
  diff := fun _ => []
  fsExists := fun _ => false
  seedVar := none
  commitTimestamp := "1700000000"
  pytestExit := fun _ => 0

/-- Concrete environment: only `master` resolving. -/
def env8c : Env where
  catFileType := fun r => if r == "master" then some "commit" else none
  diff := fun _ => []
  fsExists := fun _ => false
  seedVar := none
  commitTimestamp := "1700000000"
  pytestExit := fun _ => 0

/-- Concrete environment: only an `__init__.py` changed and no file at all
exists on disk, in particular not the fixed global test path. -/
def envInitOnly : Env where
  catFileType := fun _ => some "commit"
  diff := fun _ => ["x/__init__.py"]
  fsExists := fun _ => false
  seedVar := none
  commitTimestamp := "1700000000"
  pytestExit := fun _ => 4

/-! ### Order facts about the sorting relation -/

theorem lexLe_total (x y : List Char) : lexLe x y = true ∨ lexLe y x = true := by
  induction x generalizing y with
  | nil => left; rfl
  | cons c cs ih =>
    cases y with
    | nil => right; rfl
    | cons d ds =>
      by_cases hcd : c = d
      · subst hcd
        rcases ih ds with h | h
        · left; simpa [lexLe] using h
        · right; simpa [lexLe] using h
      · rcases lt_trichotomy c d with h | h | h
        · left; simp [lexLe, hcd, h]
        · exact absurd h hcd
        · right
          simp only [lexLe]
          rw [if_neg (fun hh : d = c => hcd hh.symm)]
          simpa using h

theorem lexLe_trans {x y z : List Char} (h1 : lexLe x y = true) (h2 : lexLe y z = true) :
    lexLe x z = true := by
  induction x generalizing y z with
  | nil => rfl
  | cons c cs ih =>
    cases y with
    | nil => simp [lexLe] at h1
    | cons d ds =>
      cases z with
      | nil => simp [lexLe] at h2
      | cons e es =>
        by_cases hcd : c = d <;> by_cases hde : d = e
        · subst hcd; subst hde
          simp only [lexLe, if_pos rfl] at h1 h2 ⊢
          exact ih h1 h2
        · subst hcd
          simp only [lexLe, if_pos rfl] at h1
          simp only [lexLe, if_neg hde, decide_eq_true_eq] at h2 ⊢
          exact h2
        · subst hde
          simpa [lexLe, hcd] using h1
        · simp only [lexLe, if_neg hcd, decide_eq_true_eq] at h1
          simp only [lexLe, if_neg hde, decide_eq_true_eq] at h2
          have hce : c < e := lt_trans h1 h2
          simp [lexLe, ne_of_lt hce, hce]

theorem lexLe_asymm_of_ne {x y : List Char} (h : lexLe x y = true) (hne : x ≠ y) :
    lexLe y x = false := by
  induction x generalizing y with
  | nil =>
    cases y with
    | nil => exact absurd rfl hne
    | cons d ds => rfl
  | cons c cs ih =>
    cases y with
    | nil => simp [lexLe] at h
    | cons d ds =>
      by_cases hcd : c = d
      · subst hcd
        simp only [lexLe, if_pos rfl] at h ⊢
        exact ih h (fun hh => hne (by rw [hh]))
      · simp only [lexLe, if_neg hcd, decide_eq_true_eq] at h
        simp only [lexLe]
        rw [if_neg (fun hh : d = c => hcd hh.symm)]
        simp [lt_asymm h]

instance : IsTotal String strLeR := ⟨fun a b => lexLe_total a.data b.data⟩

instance : IsTrans String strLeR := ⟨fun _ _ _ h1 h2 => lexLe_trans h1 h2⟩

theorem strLe_antisymm {a b : String} (h1 : strLe a b = true) (h2 : strLe b a = true) :
    a = b := by
  by_cases hd : a.data = b.data
  · cases a; cases b; exact congrArg String.mk hd
  · exact absurd h2 (by simpa [strLe] using lexLe_asymm_of_ne h1 hd)

/-! ### `uniqAdj` facts -/

theorem mem_uniqAdj {a : String} : ∀ {l : List String}, a ∈ uniqAdj l ↔ a ∈ l
  | [] => Iff.rfl
  | [b] => Iff.rfl
  | b :: c :: t => by
    by_cases hbc : b = c
    · subst hbc
      rw [show uniqAdj (b :: b :: t) = uniqAdj (b :: t) from by simp [uniqAdj]]
      rw [mem_uniqAdj (l := b :: t)]
      simp
    · rw [show uniqAdj (b :: c :: t) = b :: uniqAdj (c :: t) from by simp [uniqAdj, hbc]]
      simp only [List.mem_cons]
      rw [mem_uniqAdj (l := c :: t)]
      simp

theorem uniqAdj_sorted_nodup :
    ∀ {l : List String}, l.Pairwise strLeR →
      (uniqAdj l).Pairwise strLeR ∧ (uniqAdj l).Nodup
  | [], _ => ⟨List.Pairwise.nil, List.Pairwise.nil⟩
  | [a], _ => ⟨List.pairwise_singleton _ a, List.nodup_singleton a⟩
  | a :: b :: t, h => by
    have hhead : ∀ x ∈ b :: t, strLeR a x := (List.pairwise_cons.mp h).1
    have htail : (b :: t).Pairwise strLeR := (List.pairwise_cons.mp h).2
    have ih := uniqAdj_sorted_nodup htail
    by_cases hab : a = b
    · subst hab
      rw [show uniqAdj (a :: a :: t) = uniqAdj (a :: t) from by simp [uniqAdj]]
      exact ih
    · rw [show uniqAdj (a :: b :: t) = a :: uniqAdj (b :: t) from by simp [uniqAdj, hab]]
      constructor
      · exact List.pairwise_cons.mpr
          ⟨fun x hx => hhead x (mem_uniqAdj.mp hx), ih.1⟩
      · refine List.nodup_cons.mpr ⟨fun hmem => ?_, ih.2⟩
        have hx : a ∈ b :: t := mem_uniqAdj.mp hmem
        rcases List.mem_cons.mp hx with hx | hx
        · exact hab hx
        · have h1 : strLe a b = true := hhead b (List.mem_cons_self b t)
          have h2 : strLe b a = true :=
            (List.pairwise_cons.mp htail).1 a hx
          exact hab (strLe_antisymm h1 h2)

theorem derivedTests_sorted_nodup (env : Env) (rev : String) :
    (derivedTests env rev).Pairwise strLeR ∧ (derivedTests env rev).Nodup :=
  uniqAdj_sorted_nodup (List.sorted_insertionSort strLeR _)

theorem mem_derivedTests {env : Env} {rev t : String} :
    t ∈ derivedTests env rev ↔
      env.fsExists t = true ∧
        ∃ f ∈ env.diff rev, strEndsWith f ".py" = true ∧ deriveCandidate f = t := by
  unfold derivedTests
  rw [mem_uniqAdj, List.mem_insertionSort]
  simp only [List.mem_filter, List.mem_map]
  constructor
  · rintro ⟨⟨f, ⟨hfd, hfpy⟩, hft⟩, hex⟩
    exact ⟨hex, f, hfd, hfpy, hft⟩
  · rintro ⟨hex, f, hfd, hfpy, hft⟩
    exact ⟨⟨f, ⟨hfd, hfpy⟩, hft⟩, hex⟩

/-! ### Suffix-substitution facts -/

theorem sedSuffix_append (pat repl : String) (xs : List Char) :
    sedSuffix pat repl ⟨xs ++ pat.data⟩ = ⟨xs ++ repl.data⟩ := by
  unfold sedSuffix strEndsWith
  rw [if_pos (decide_eq_true (List.suffix_append xs pat.data))]
  have hlen : (xs ++ pat.data).length - pat.data.length = xs.length := by
    simp
  congr 1
  show (xs ++ pat.data).take ((xs ++ pat.data).length - pat.data.length) ++ repl.data
      = xs ++ repl.data
  rw [hlen, List.take_left]

theorem deriveCandidate_already_test (stem : String) :
    deriveCandidate (stem ++ "_test.py") = stem ++ "_test.py" := by
  obtain ⟨xs⟩ := stem
  have hsplit : ("_test.py" : String).data = ("_test" : String).data ++ (".py" : String).data := by
    decide
  have hjoin : ("_test" : String).data ++ ("_test.py" : String).data
      = ("_test_test.py" : String).data := by decide
  have e0 : (String.mk xs ++ "_test.py") = String.mk (xs ++ ("_test.py" : String).data) := rfl
  rw [e0]
  unfold deriveCandidate
  have e1 : sedSuffix ".py" "_test.py" ⟨xs ++ ("_test.py" : String).data⟩
      = ⟨(xs ++ ("_test" : String).data) ++ ("_test.py" : String).data⟩ := by
    have := sedSuffix_append ".py" "_test.py" (xs ++ ("_test" : String).data)
    rw [show xs ++ ("_test.py" : String).data
        = (xs ++ ("_test" : String).data) ++ (".py" : String).data from by
      rw [List.append_assoc, ← hsplit]]
    exact this
  rw [e1]
  have e2 : sedSuffix "_test_test.py" "_test.py"
      ⟨(xs ++ ("_test" : String).data) ++ ("_test.py" : String).data⟩
      = ⟨xs ++ ("_test.py" : String).data⟩ := by
    have := sedSuffix_append "_test_test.py" "_test.py" xs
    rw [show (xs ++ ("_test" : String).data) ++ ("_test.py" : String).data
        = xs ++ ("_test_test.py" : String).data from by
      rw [List.append_assoc, hjoin]]
    exact this
  rw [e2]

/-! ### Structural facts about the script run -/

theorem probeDefaults_effect_shape (env : Env) (args : List String) :
    ∀ e ∈ (probeDefaults env args).1,
      (∃ r, e = Effect.gitCatFile r) ∨ ∃ m, e = Effect.stderr m := by
  unfold probeDefaults
  split_ifs <;> intro e he <;>
    simp only [List.mem_cons, List.not_mem_nil, or_false] at he <;>
    rcases he with rfl | rfl | rfl | rfl <;>
    first
      | exact Or.inl ⟨_, rfl⟩
      | exact Or.inr ⟨_, rfl⟩

theorem resolveRev_effect_shape (env : Env) (args : List String) :
    ∀ e ∈ (resolveRev env args).1,
      (∃ r, e = Effect.gitCatFile r) ∨ ∃ m, e = Effect.stderr m := by
  cases args with
  | nil => exact probeDefaults_effect_shape env []
  | cons a tl =>
    by_cases hc : (!(a == "") && !strStartsWith a "-") = true
    · by_cases hk : isCommit env a = true
      · intro e he
        simp only [resolveRev, if_pos hc, if_pos hk, List.mem_singleton] at he
        exact Or.inl ⟨_, he⟩
      · intro e he
        simp only [resolveRev, if_pos hc, if_neg hk, List.mem_cons,
          List.not_mem_nil, or_false] at he
        rcases he with rfl | rfl
        · exact Or.inl ⟨_, rfl⟩
        · exact Or.inr ⟨_, rfl⟩
    · intro e he
      simp only [resolveRev, if_neg hc] at he
      exact probeDefaults_effect_shape env (a :: tl) e he

theorem runScript_resolved {env : Env} {args : List String} {tr : List Effect}
    {rev : String} {rest : List String}
    (h : resolveRev env args = (tr, some (rev, rest))) :
    runScript env args = (tr ++ (scriptTail env rev rest).1, (scriptTail env rev rest).2) := by
  unfold runScript
  rw [h]

theorem runScript_failed {env : Env} {args : List String} {tr : List Effect}
    (h : resolveRev env args = (tr, none)) :
    runScript env args = (tr, 1) := by
  unfold runScript
  rw [h]

theorem scriptTail_empty {env : Env} {rev : String} (rest : List String)
    (h : finalFiles env rev = []) :
    scriptTail env rev rest =
      ([Effect.stderr (comparingMsg rev), Effect.gitDiff rev, Effect.gitDiff rev,
        Effect.stderr (foundMsg 0)], 0) := by
  simp [scriptTail, h]

theorem scriptTail_nonempty {env : Env} {rev : String} (rest : List String)
    (h : finalFiles env rev ≠ []) :
    scriptTail env rev rest =
      ([Effect.stderr (comparingMsg rev), Effect.gitDiff rev, Effect.gitDiff rev,
        Effect.stderr (foundMsg (finalFiles env rev).length),
        Effect.exportSeed (seedValue env),
        Effect.runPytest (rest ++ finalFiles env rev)],
        env.pytestExit (rest ++ finalFiles env rev)) := by
  simp only [scriptTail]
  rw [if_neg (by simpa [List.isEmpty_iff] using h)]
  rfl

theorem runPytest_not_mem_resolveRev (env : Env) (args : List String) (pa : List String) :
    Effect.runPytest pa ∉ (resolveRev env args).1 := by
  intro hmem
  rcases resolveRev_effect_shape env args _ hmem with ⟨r, hr⟩ | ⟨m, hm⟩ <;> simp_all

theorem runPytest_mem_runScript {env : Env} {args : List String} {tr : List Effect}
    {rev : String} {rest : List String}
    (hres : resolveRev env args = (tr, some (rev, rest)))
    (hne : finalFiles env rev ≠ []) :
    Effect.runPytest (rest ++ finalFiles env rev) ∈ (runScript env args).1 := by
  rw [runScript_resolved hres, scriptTail_nonempty rest hne]
  simp

theorem filter_gitDiff_resolveRev (env : Env) (args : List String) :
    (resolveRev env args).1.filter isGitDiffEff = [] := by
  rw [List.filter_eq_nil_iff]
  intro e he
  rcases resolveRev_effect_shape env args e he with ⟨r, hr⟩ | ⟨m, hm⟩ <;>
    subst_vars <;> simp [isGitDiffEff]

theorem filterMap_seeds_resolveRev (env : Env) (args : List String) :
    (resolveRev env args).1.filterMap seedOf = [] := by
  rw [List.filterMap_eq_nil_iff]
  intro e he
  rcases resolveRev_effect_shape env args e he with ⟨r, hr⟩ | ⟨m, hm⟩ <;>
    subst_vars <;> rfl

theorem probeDefaults_snd (env : Env) (args : List String) :
    (probeDefaults env args).2 = (probeDefaults env []).2.map (fun p => (p.1, args)) := by
  unfold probeDefaults
  split_ifs <;> rfl

theorem probeDefaults_rest (env : Env) (args : List String) {tr : List Effect}
    {rev : String} {rest : List String}
    (h : probeDefaults env args = (tr, some (rev, rest))) : rest = args := by
  unfold probeDefaults at h
  split_ifs at h <;> simp_all

theorem exportedSeeds_cases (env : Env) (args : List String) :
    exportedSeeds env args = [] ∨ exportedSeeds env args = [seedValue env] := by
  unfold exportedSeeds
  rcases hres : resolveRev env args with ⟨tr, o⟩
  have htr : tr.filterMap seedOf = [] := by
    have := filterMap_seeds_resolveRev env args
    rwa [hres] at this
  rcases o with _ | ⟨rev, rest⟩
  · left
    rw [runScript_failed hres]
    exact htr
  · rw [runScript_resolved hres]
    by_cases hnil : finalFiles env rev = []
    · left
      rw [scriptTail_empty rest hnil]
      simp [List.filterMap_append, htr, seedOf]
    · right
      rw [scriptTail_nonempty rest hnil]
      simp [List.filterMap_append, htr, seedOf]

theorem filter_gitDiff_runScript {env : Env} {args : List String} {tr : List Effect}
    {rev : String} {rest : List String}
    (hres : resolveRev env args = (tr, some (rev, rest))) :
    (runScript env args).1.filter isGitDiffEff = [Effect.gitDiff rev, Effect.gitDiff rev] := by
  have htr : tr.filter isGitDiffEff = [] := by
    have := filter_gitDiff_resolveRev env args
    rwa [hres] at this
  rw [runScript_resolved hres]
  by_cases hnil : finalFiles env rev = []
  · rw [scriptTail_empty rest hnil]
    simp [List.filter_append, htr, isGitDiffEff]
  · rw [scriptTail_nonempty rest hnil]
    simp [List.filter_append, htr, isGitDiffEff]

/-! ### Claim theorems -/

/-- C1: the Test-File Deriver maps every changed path ending in `.py` to its
`_test.py` counterpart, keeps a candidate only when that file exists on the
filesystem (a changed production file with no existing test counterpart
contributes nothing, with no error), and the derived set it returns is
deduplicated and sorted; in particular, for a changed `pkg/module.py` with an
existing `pkg/module_test.py`, the derived set is exactly
`[pkg/module_test.py]`. -/
theorem derivedTests_characterization :
    (∀ (env : Env) (rev : String),
      (derivedTests env rev).Pairwise strLeR ∧ (derivedTests env rev).Nodup ∧
        ∀ t, t ∈ derivedTests env rev ↔
          env.fsExists t = true ∧
            ∃ f ∈ env.diff rev, strEndsWith f ".py" = true ∧ deriveCandidate f = t)
    ∧ derivedTests envC1 "master" = ["pkg/module_test.py"] :=
  ⟨fun env rev =>
    ⟨(derivedTests_sorted_nodup env rev).1, (derivedTests_sorted_nodup env rev).2,
      fun _ => mem_derivedTests⟩,
    by decide⟩

/-- C2 counterexample: with both `cirq-core/cirq/protocols/json_serialization.py`
and `x/__init__.py` changed and the serialization test file existing on disk,
an initializer file changed yet the fixed conformance path appears twice, not
exactly once, in the final test-file set. -/
theorem initAugment_duplicate_counterexample :
    hasInitChanged envC2 "master" = true ∧
    (finalFiles envC2 "master").count fixedGlobalTest = 2 ∧
    (finalFiles envC2 "master").count fixedGlobalTest ≠ 1 := by
  decide

/-- C2 amended: if any changed file path ends in `__init__.py`, the fixed
conformance test path is appended exactly once after the derived set,
regardless of how many initializer files changed; it therefore occurs exactly
once in the final set unless the derived set already contains it (when the
serialization source or test file itself also changed), in which case it
occurs twice. -/
theorem initAugment_append_once (env : Env) (rev : String)
    (h : hasInitChanged env rev = true) :
    finalFiles env rev = derivedTests env rev ++ [fixedGlobalTest] ∧
    (finalFiles env rev).count fixedGlobalTest =
      (if fixedGlobalTest ∈ derivedTests env rev then 2 else 1) := by
  have heq : finalFiles env rev = derivedTests env rev ++ [fixedGlobalTest] := by
    simp [finalFiles, h]
  refine ⟨heq, ?_⟩
  rw [heq, List.count_append]
  by_cases hmem : fixedGlobalTest ∈ derivedTests env rev
  · rw [if_pos hmem, List.count_eq_one_of_mem (derivedTests_sorted_nodup env rev).2 hmem]
    simp
  · rw [if_neg hmem, List.count_eq_zero_of_not_mem hmem]
    simp

/-- Witness for the amended C2 at the concrete duplicate-producing input. -/
theorem initAugment_append_once_witness :
    finalFiles envC2 "master" = derivedTests envC2 "master" ++ [fixedGlobalTest] ∧
    (finalFiles envC2 "master").count fixedGlobalTest =
      (if fixedGlobalTest ∈ derivedTests envC2 "master" then 2 else 1) :=
  initAugment_append_once envC2 "master" (by decide)

/-- C3: the test-file derivation is idempotent — a changed file already named
with the `_test.py` suffix derives to itself, never to a doubled
`_test_test.py` name; in particular `pkg/module_test.py` derives to itself. -/
theorem deriveCandidate_idempotent :
    (∀ stem : String, deriveCandidate (stem ++ "_test.py") = stem ++ "_test.py")
    ∧ deriveCandidate "pkg/module_test.py" = "pkg/module_test.py" :=
  ⟨deriveCandidate_already_test, by decide⟩

/-- C4: whenever the revision cannot be resolved — an explicit non-flag
argument that is not a commit, or no argument and no default candidate
resolving — the script exits with code 1 and writes an error to stderr, one
that mentions the supplied revision in the explicit case. -/
theorem revision_failure_exit1 (env : Env) :
    (∀ (a : String) (tl : List String),
      (!(a == "") && !strStartsWith a "-") = true → isCommit env a = false →
        (runScript env (a :: tl)).2 = 1 ∧
        Effect.stderr (errNoRevision a) ∈ (runScript env (a :: tl)).1 ∧
        errNoRevision a = "\x1b[31mNo revision \x27" ++ a ++ "\x27.\x1b[0m")
    ∧ (∀ args : List String, firstLooksLikeRev args = false →
        isCommit env "upstream/master" = false → isCommit env "origin/master" = false →
        isCommit env "master" = false →
        (runScript env args).2 = 1 ∧ Effect.stderr errNoDefault ∈ (runScript env args).1) := by
  constructor
  · intro a tl hflag hcommit
    have hres : resolveRev env (a :: tl)
        = ([Effect.gitCatFile a, Effect.stderr (errNoRevision a)], none) := by
      simp only [resolveRev, if_pos hflag]
      rw [if_neg (by simp [hcommit])]
    rw [runScript_failed hres]
    exact ⟨rfl, by simp, rfl⟩
  · intro args hflag h1 h2 h3
    have hprobe : probeDefaults env args
        = ([Effect.gitCatFile "upstream/master", Effect.gitCatFile "origin/master",
            Effect.gitCatFile "master", Effect.stderr errNoDefault], none) := by
      unfold probeDefaults
      rw [if_neg (by simp [h1]), if_neg (by simp [h2]), if_neg (by simp [h3])]
    have hres : resolveRev env args = probeDefaults env args := by
      cases args with
      | nil => rfl
      | cons a tl =>
        have hc : (!(a == "") && !strStartsWith a "-") = false := by
          simpa [firstLooksLikeRev] using hflag
        simp only [resolveRev]
        rw [if_neg (by simp [hc])]
    rw [runScript_failed (hres.trans hprobe)]
    exact ⟨rfl, by simp⟩

/-- Witness for C4: with no revision resolving, an explicit bad revision and a
flag-only invocation both exit 1 with the respective stderr errors. -/
theorem revision_failure_exit1_witness :
    ((runScript envFail ["badrev"]).2 = 1 ∧
      Effect.stderr (errNoRevision "badrev") ∈ (runScript envFail ["badrev"]).1) ∧
    ((runScript envFail ["-v"]).2 = 1 ∧
      Effect.stderr errNoDefault ∈ (runScript envFail ["-v"]).1) := by
  have h := revision_failure_exit1 envFail
  have hx := h.1 "badrev" [] (by decide) (by decide)
  exact ⟨⟨hx.1, hx.2.1⟩, h.2 ["-v"] (by decide) (by decide) (by decide) (by decide)⟩

/-- C5: once the revision is resolved, a zero-count final file list makes the
script exit 0 without ever invoking pytest, while a non-empty list makes it
invoke pytest on the caller-supplied flags followed by the file list and exit
with exactly the exit code of pytest. -/
theorem test_invoker_exit (env : Env) (args : List String) (tr : List Effect)
    (rev : String) (rest : List String)
    (hres : resolveRev env args = (tr, some (rev, rest))) :
    (finalFiles env rev = [] →
      (runScript env args).2 = 0 ∧ ∀ pa, Effect.runPytest pa ∉ (runScript env args).1)
    ∧ (finalFiles env rev ≠ [] →
      (runScript env args).2 = env.pytestExit (rest ++ finalFiles env rev) ∧
      Effect.runPytest (rest ++ finalFiles env rev) ∈ (runScript env args).1) := by
  constructor
  · intro hnil
    rw [runScript_resolved hres, scriptTail_empty rest hnil]
    refine ⟨rfl, fun pa hmem => ?_⟩
    simp only [List.mem_append] at hmem
    rcases hmem with hmem | hmem
    · have hno := runPytest_not_mem_resolveRev env args pa
      rw [hres] at hno
      exact hno hmem
    · simp at hmem
  · intro hne
    refine ⟨?_, runPytest_mem_runScript hres hne⟩
    rw [runScript_resolved hres, scriptTail_nonempty rest hne]

/-- Witness for C5: a run with nothing changed exits 0 without pytest, and a
run with one derived test file exits with the code pytest returned for that file list. -/
theorem test_invoker_exit_witness :
    ((runScript envEmptyDiff ["-x"]).2 = 0 ∧
      Effect.runPytest ["-x"] ∉ (runScript envEmptyDiff ["-x"]).1) ∧
    ((runScript envRun ["somerev"]).2
        = envRun.pytestExit ([] ++ finalFiles envRun "somerev") ∧
      Effect.runPytest ([] ++ finalFiles envRun "somerev")
        ∈ (runScript envRun ["somerev"]).1) := by
  have h1 := (test_invoker_exit envEmptyDiff ["-x"] [Effect.gitCatFile "upstream/master"]
    "upstream/master" ["-x"] (by decide)).1 (by decide)
  have h2 := (test_invoker_exit envRun ["somerev"] [Effect.gitCatFile "somerev"]
    "somerev" [] (by decide)).2 (by decide)
  exact ⟨⟨h1.1, h1.2 ["-x"]⟩, h2⟩

/-- C6: the seed variable is read when already set and otherwise computed from
the latest commit timestamp and exported, so two invocations with no seed
variable set and the same latest-commit timestamp export identical seeds. -/
theorem seed_determinism (e1 e2 : Env) (a1 a2 : List String)
    (h1 : e1.seedVar = none) (h2 : e2.seedVar = none)
    (ht : e1.commitTimestamp = e2.commitTimestamp) :
    (exportedSeeds e1 a1 ≠ [] → exportedSeeds e1 a1 = [e1.commitTimestamp])
    ∧ (exportedSeeds e1 a1 ≠ [] → exportedSeeds e2 a2 ≠ [] →
        exportedSeeds e1 a1 = exportedSeeds e2 a2)
    ∧ ∀ (e : Env) (a : List String) (s : String), e.seedVar = some s →
        exportedSeeds e a ≠ [] → exportedSeeds e a = [s] := by
  have k1 : exportedSeeds e1 a1 ≠ [] → exportedSeeds e1 a1 = [seedValue e1] := by
    intro hne
    rcases exportedSeeds_cases e1 a1 with h | h
    · exact absurd h hne
    · exact h
  have k2 : exportedSeeds e2 a2 ≠ [] → exportedSeeds e2 a2 = [seedValue e2] := by
    intro hne
    rcases exportedSeeds_cases e2 a2 with h | h
    · exact absurd h hne
    · exact h
  have hv1 : seedValue e1 = e1.commitTimestamp := by simp [seedValue, h1]
  have hv2 : seedValue e2 = e2.commitTimestamp := by simp [seedValue, h2]
  refine ⟨fun hne => by rw [k1 hne, hv1], fun hne1 hne2 => ?_, fun e a s hset hne => ?_⟩
  · rw [k1 hne1, k2 hne2, hv1, hv2, ht]
  · rcases exportedSeeds_cases e a with h | h
    · exact absurd h hne
    · rw [h]
      simp [seedValue, hset]

/-- Witness for C6: two runs over different changed files but the same
timestamp and unset seed variable export the same seed. -/
theorem seed_determinism_witness :
    exportedSeeds envRun ["somerev"] = ["1700000000"] ∧
    exportedSeeds envRun ["somerev"] = exportedSeeds envRun2 [] := by
  have h := seed_determinism envRun envRun2 ["somerev"] [] rfl rfl rfl
  have hne1 : exportedSeeds envRun ["somerev"] ≠ [] := by decide
  have hne2 : exportedSeeds envRun2 [] ≠ [] := by decide
  exact ⟨h.1 hne1, h.2.1 hne1 hne2⟩

theorem resolveRev_of_noflag {env : Env} {args : List String}
    (hflag : firstLooksLikeRev args = false) :
    resolveRev env args = probeDefaults env args := by
  cases args with
  | nil => rfl
  | cons a tl =>
    have hc : (!(a == "") && !strStartsWith a "-") = false := by
      simpa [firstLooksLikeRev] using hflag
    simp only [resolveRev]
    rw [if_neg (by simp [hc])]

/-- C7 counterexample: a successful run performs two name-only diff
invocations (lines 58 and 66 of the script), not exactly one. -/
theorem single_diff_counterexample :
    (runScript envEmptyDiff []).2 = 0 ∧
    diffCallCount envEmptyDiff [] = 2 ∧
    diffCallCount envEmptyDiff [] ≠ 1 := by decide

/-- C7 amended: the script performs exactly two name-only diff invocations,
both against the same resolved revision, and both the test-file derivation and
the package-initializer check are evaluated over the diff listing of that same
revision. -/
theorem two_identical_diffs (env : Env) (args : List String) (tr : List Effect)
    (rev : String) (rest : List String)
    (hres : resolveRev env args = (tr, some (rev, rest))) :
    (runScript env args).1.filter isGitDiffEff = [Effect.gitDiff rev, Effect.gitDiff rev] ∧
    derivedTests env rev =
      uniqAdj (List.insertionSort strLeR
        ((((env.diff rev).filter (fun f => strEndsWith f ".py")).map deriveCandidate).filter
          env.fsExists)) ∧
    hasInitChanged env rev = (env.diff rev).any (fun f => strEndsWith f "__init__.py") :=
  ⟨filter_gitDiff_runScript hres, rfl, rfl⟩

/-- Witness for the amended C7 at a concrete resolving environment. -/
theorem two_identical_diffs_witness :
    (runScript envEmptyDiff []).1.filter isGitDiffEff
      = [Effect.gitDiff "upstream/master", Effect.gitDiff "upstream/master"] ∧
    derivedTests envEmptyDiff "upstream/master" =
      uniqAdj (List.insertionSort strLeR
        ((((envEmptyDiff.diff "upstream/master").filter
            (fun f => strEndsWith f ".py")).map deriveCandidate).filter
          envEmptyDiff.fsExists)) ∧
    hasInitChanged envEmptyDiff "upstream/master"
      = (envEmptyDiff.diff "upstream/master").any (fun f => strEndsWith f "__init__.py") :=
  two_identical_diffs envEmptyDiff [] [Effect.gitCatFile "upstream/master"]
    "upstream/master" [] (by decide)

/-- C8: with no usable revision argument, the script probes
`upstream/master`, `origin/master`, `master` in that order and selects the
first that resolves to a commit. -/
theorem default_probing_order (env : Env) (args : List String)
    (hflag : firstLooksLikeRev args = false) :
    (isCommit env "upstream/master" = true →
      (resolveRev env args).2 = some ("upstream/master", args)) ∧
    (isCommit env "upstream/master" = false → isCommit env "origin/master" = true →
      (resolveRev env args).2 = some ("origin/master", args)) ∧
    (isCommit env "upstream/master" = false → isCommit env "origin/master" = false →
      isCommit env "master" = true →
      (resolveRev env args).2 = some ("master", args)) := by
  rw [resolveRev_of_noflag hflag]
  refine ⟨fun h1 => ?_, fun h1 h2 => ?_, fun h1 h2 h3 => ?_⟩
  · unfold probeDefaults
    rw [if_pos h1]
  · unfold probeDefaults
    rw [if_neg (by simp [h1]), if_pos h2]
  · unfold probeDefaults
    rw [if_neg (by simp [h1]), if_neg (by simp [h2]), if_pos h3]

/-- Witness for C8: each of the three fallback situations selects the expected
default revision. -/
theorem default_probing_order_witness :
    (resolveRev envRun []).2 = some ("upstream/master", []) ∧
    (resolveRev env8b ["-q"]).2 = some ("origin/master", ["-q"]) ∧
    (resolveRev env8c []).2 = some ("master", []) := by
  refine ⟨(default_probing_order envRun [] (by decide)).1 (by decide), ?_, ?_⟩
  · exact (default_probing_order env8b ["-q"] (by decide)).2.1 (by decide) (by decide)
  · exact (default_probing_order env8c [] (by decide)).2.2 (by decide) (by decide) (by decide)

/-- C9: a flag-like first argument is treated as if no revision was supplied —
default probing decides the revision exactly as with an empty argument list —
and the whole argument list, that flag included, is forwarded to pytest. -/
theorem flag_arg_passthrough (env : Env) (a : String) (tl : List String)
    (hflag : strStartsWith a "-" = true) :
    (resolveRev env (a :: tl)).2 = (resolveRev env []).2.map (fun p => (p.1, a :: tl)) ∧
    ∀ (rev : String) (rest : List String) (tr : List Effect),
      resolveRev env (a :: tl) = (tr, some (rev, rest)) →
        rest = a :: tl ∧
        (finalFiles env rev ≠ [] →
          Effect.runPytest ((a :: tl) ++ finalFiles env rev) ∈ (runScript env (a :: tl)).1) := by
  have hfl : firstLooksLikeRev (a :: tl) = false := by
    simp [firstLooksLikeRev, hflag]
  have hres : resolveRev env (a :: tl) = probeDefaults env (a :: tl) :=
    resolveRev_of_noflag hfl
  constructor
  · rw [hres, show resolveRev env [] = probeDefaults env [] from rfl]
    exact probeDefaults_snd env (a :: tl)
  · intro rev rest tr hsome
    have hrest : rest = a :: tl :=
      probeDefaults_rest env (a :: tl) (hres.symm.trans hsome)
    refine ⟨hrest, fun hne => ?_⟩
    have hmem := runPytest_mem_runScript hsome hne
    rwa [hrest] at hmem

/-- Witness for C9: `-v` as first argument leads to default probing and is the
first pytest argument. -/
theorem flag_arg_passthrough_witness :
    (resolveRev envRun ["-v"]).2 = (resolveRev envRun []).2.map (fun p => (p.1, ["-v"])) ∧
    Effect.runPytest (["-v"] ++ finalFiles envRun "upstream/master")
      ∈ (runScript envRun ["-v"]).1 := by
  have h := flag_arg_passthrough envRun "-v" [] (by decide)
  refine ⟨h.1, ?_⟩
  have h2 := h.2 "upstream/master" ["-v"] [Effect.gitCatFile "upstream/master"] (by decide)
  exact h2.2 (by decide)

/-- C10: the Global-Init Augmenter appends the fixed conformance path with no
filesystem existence check — here the environment even reports it missing —
after the sorted derived sequence, so whenever an initializer file changed the
fixed path is the last file argument handed to pytest. -/
theorem init_augmenter_unconditional (env : Env) (rev : String)
    (hinit : hasInitChanged env rev = true)
    (hfs : env.fsExists fixedGlobalTest = false) :
    finalFiles env rev = derivedTests env rev ++ [fixedGlobalTest] ∧
    (finalFiles env rev).getLast? = some fixedGlobalTest ∧
    ∀ (args : List String) (tr : List Effect) (rest : List String),
      resolveRev env args = (tr, some (rev, rest)) →
        Effect.runPytest (rest ++ finalFiles env rev) ∈ (runScript env args).1 ∧
        (rest ++ finalFiles env rev).getLast? = some fixedGlobalTest := by
  have heq : finalFiles env rev = derivedTests env rev ++ [fixedGlobalTest] := by
    simp [finalFiles, hinit]
  have hlast : (finalFiles env rev).getLast? = some fixedGlobalTest := by
    rw [heq]
    exact List.getLast?_concat _
  have hne : finalFiles env rev ≠ [] := by
    rw [heq]
    simp
  refine ⟨heq, hlast, fun args tr rest hres => ⟨runPytest_mem_runScript hres hne, ?_⟩⟩
  rw [heq, ← List.append_assoc]
  exact List.getLast?_concat _

/-- Witness for C10: with only `x/__init__.py` changed and no file existing on
disk, the final list is exactly the fixed path and pytest receives it last. -/
theorem init_augmenter_unconditional_witness :
    finalFiles envInitOnly "upstream/master"
      = derivedTests envInitOnly "upstream/master" ++ [fixedGlobalTest] ∧
    (finalFiles envInitOnly "upstream/master").getLast? = some fixedGlobalTest ∧
    Effect.runPytest ([] ++ finalFiles envInitOnly "upstream/master")
      ∈ (runScript envInitOnly []).1 ∧
    ([] ++ finalFiles envInitOnly "upstream/master").getLast? = some fixedGlobalTest := by
  have h := init_augmenter_unconditional envInitOnly "upstream/master" (by decide) (by decide)
  have h2 := h.2.2 [] [Effect.gitCatFile "upstream/master"] [] (by decide)
  exact ⟨h.1, h.2.1, h2.1, h2.2⟩
